import Mathlib

/-!
Shallow embedding of the sampling core of `src/sd3_impls.py` (SD3 inference):
noise schedule, CFG / skip-layer-guidance denoiser wrappers, Euler and
DPM++(2M) samplers, and the latent-format affine map with its RGB preview.
Tensors are modelled elementwise over `ℚ` (every tensor operation the claims
touch is elementwise or a batch concatenation/split, which we model
explicitly); machine floats become exact rationals.
-/

/-- `ModelSamplingDiscreteFlow` from `sd3_impls.py`: sampler scheduling helper,
holding the `shift` parameter. -/
structure ModelSamplingDiscreteFlow where
  shift : ℚ

/-- `ModelSamplingDiscreteFlow.timestep`: `sigma * 1000`. -/
def ModelSamplingDiscreteFlow.timestep (_m : ModelSamplingDiscreteFlow) (sigma : ℚ) : ℚ :=
  sigma * 1000

/-- `ModelSamplingDiscreteFlow.sigma`: divides the timestep by 1000, returns it
unchanged when `shift == 1.0`, else applies the shifted-flow reparametrization. -/
def ModelSamplingDiscreteFlow.sigma (m : ModelSamplingDiscreteFlow) (timestep : ℚ) : ℚ :=
  let t := timestep / 1000
  if m.shift = 1 then t
  else m.shift * t / (1 + (m.shift - 1) * t)

/-- A conditioning bundle: the dict with keys `c_crossattn` and `y` passed to
the CFG wrappers. The embedding type `C` of each entry is abstract. -/
structure CondBundle (C : Type) where
  c_crossattn : C
  y : C

/-- Modelled from the spec: `BaseModel.apply_model` calls the `MMDiTX`
transformer backbone (`mmditx.py`, imported by `sd3_impls.py` but not part of
the provided sources), so the denoiser core is a black box here. Per the spec,
batching cond and uncond together "is an efficiency optimization — conceptually
two independent evaluations", so `apply_model` is modelled as a per-sample
function `(x, sigma, c_crossattn, y, skip_layers) → denoised`, and the
concatenation `cat([x, x])` followed by `chunk(2)` is modelled as evaluating
this function on each half of the batch. -/
structure BaseModel (C : Type) where
  apply_model : ℚ → ℚ → C → C → List ℕ → ℚ

/-- `CFGDenoiser` from `sd3_impls.py`: helper for applying CFG scaling. -/
structure CFGDenoiser (C : Type) where
  model : BaseModel C

/-- `CFGDenoiser.forward`: runs cond and uncond in a batch together, splits
into `pos_out, neg_out`, then scales. NOTE: the source hardcodes the factor
`2.5` (with a trailing comment naming `cond_scale`) and ignores the
`cond_scale` argument; the embedding reproduces that literally. -/
def CFGDenoiser.forward {C : Type} (d : CFGDenoiser C) (x timestep : ℚ)
    (cond uncond : CondBundle C) (cond_scale : ℚ) : ℚ :=
  let batched : ℚ × ℚ :=
    (d.model.apply_model x timestep cond.c_crossattn cond.y [],
     d.model.apply_model x timestep uncond.c_crossattn uncond.y [])
  let pos_out := batched.1
  let neg_out := batched.2
  let scaled := neg_out + (pos_out - neg_out) * (2.5 : ℚ)
  scaled

/-- `SkipLayerCFGDenoiser` from `sd3_impls.py`: CFG with skip-layer guidance.
Fields mirror `__init__` (the `skip_layer_config` dict entries `scale`,
`start`, `end`, `layers`) plus the mutable step counter. -/
structure SkipLayerCFGDenoiser (C : Type) where
  model : BaseModel C
  steps : ℕ
  slg : ℚ
  skip_start : ℚ
  skip_end : ℚ
  skip_layers : List ℕ
  step : ℕ

/-- `SkipLayerCFGDenoiser.__init__`: records the config and sets `step = 0`. -/
def SkipLayerCFGDenoiser.init {C : Type} (model : BaseModel C) (steps : ℕ)
    (scale start stop : ℚ) (layers : List ℕ) : SkipLayerCFGDenoiser C :=
  { model := model, steps := steps, slg := scale, skip_start := start,
    skip_end := stop, skip_layers := layers, step := 0 }

/-- The guard of the skip-layer branch in `SkipLayerCFGDenoiser.forward`:
`self.slg > 0 and self.step > self.skip_start*self.steps and
self.step < self.skip_end*self.steps`. -/
def SkipLayerCFGDenoiser.skipGuard {C : Type} (d : SkipLayerCFGDenoiser C) : Prop :=
  0 < d.slg ∧ d.skip_start * (d.steps : ℚ) < (d.step : ℚ) ∧
    (d.step : ℚ) < d.skip_end * (d.steps : ℚ)

instance {C : Type} (d : SkipLayerCFGDenoiser C) : Decidable d.skipGuard := by
  unfold SkipLayerCFGDenoiser.skipGuard; infer_instance

/-- `SkipLayerCFGDenoiser.forward`: the CFG computation with the true
`cond_scale`, then, under `skipGuard`, one more denoiser evaluation with the
configured `skip_layers` and the additive correction
`(pos_out - skip_layer_out) * slg`; finally `self.step += 1`. Mutation of
`self.step` is modelled by returning the updated wrapper state alongside the
output. -/
def SkipLayerCFGDenoiser.forward {C : Type} (d : SkipLayerCFGDenoiser C)
    (x timestep : ℚ) (cond uncond : CondBundle C) (cond_scale : ℚ) :
    ℚ × SkipLayerCFGDenoiser C :=
  let batched : ℚ × ℚ :=
    (d.model.apply_model x timestep cond.c_crossattn cond.y [],
     d.model.apply_model x timestep uncond.c_crossattn uncond.y [])
  let pos_out := batched.1
  let neg_out := batched.2
  let scaled := neg_out + (pos_out - neg_out) * cond_scale
  let scaled :=
    if d.skipGuard then
      let skip_layer_out :=
        d.model.apply_model x timestep cond.c_crossattn cond.y d.skip_layers
      scaled + (pos_out - skip_layer_out) * d.slg
    else scaled
  (scaled, { d with step := d.step + 1 })

/-- `SD3LatentFormat` from `sd3_impls.py`: the affine latent normalization. -/
structure SD3LatentFormat where
  scale_factor : ℚ
  shift_factor : ℚ

/-- `SD3LatentFormat.__init__`: the fixed constants. -/
def SD3LatentFormat.init : SD3LatentFormat :=
  { scale_factor := 1.5305, shift_factor := 0.0609 }

/-- `SD3LatentFormat.process_in`: `(latent - shift_factor) * scale_factor`. -/
def SD3LatentFormat.process_in (f : SD3LatentFormat) (latent : ℚ) : ℚ :=
  (latent - f.shift_factor) * f.scale_factor

/-- `SD3LatentFormat.process_out`: `latent / scale_factor + shift_factor`. -/
def SD3LatentFormat.process_out (f : SD3LatentFormat) (latent : ℚ) : ℚ :=
  latent / f.scale_factor + f.shift_factor

/-- The fixed 16×3 projection matrix of
`SD3LatentFormat.decode_latent_to_preview`. -/
def previewFactors : List (List ℚ) :=
  [[-0.0645, 0.0177, 0.1052],
   [0.0028, 0.0312, 0.0650],
   [0.1848, 0.0762, 0.0360],
   [0.0944, 0.0360, 0.0889],
   [0.0897, 0.0506, -0.0364],
   [-0.0020, 0.1203, 0.0284],
   [0.0855, 0.0118, 0.0283],
   [-0.0539, 0.0658, 0.1047],
   [-0.0057, 0.0116, 0.0700],
   [-0.0412, 0.0281, -0.0039],
   [0.1106, 0.1171, 0.1220],
   [-0.0248, 0.0682, -0.0481],
   [0.0815, 0.0846, 0.1207],
   [-0.0120, -0.0055, -0.0867],
   [-0.0749, -0.0634, -0.0456],
   [-0.1418, -0.1457, -0.1259]]

/-- Row-vector times matrix: component `k` of the result is
`Σ_c v[c] * m[c][k]` — the `@` product of one pixel's channel vector with
`previewFactors`. -/
def vecMat (v : List ℚ) (m : List (List ℚ)) : List ℚ :=
  m.transpose.map fun col => (List.zipWith (fun a b => a * b) v col).sum

/-- `.permute(1, 2, 0)` on a (channels, height, width) array, giving
(height, width, channels). -/
def permute120 (x : List (List (List ℚ))) : List (List (List ℚ)) :=
  x.transpose.map List.transpose

/-- One scalar of `((latent_image + 1) / 2).clamp(0, 1).mul(0xFF).byte()`:
rescale from -1..1 to 0..1, clamp, scale to 0..255, truncate to an integer
(the value is already in [0, 255], so byte truncation is the floor). -/
def toUbyte (v : ℚ) : ℤ :=
  ⌊min (max ((v + 1) / 2) 0) 1 * 255⌋

/-- `SD3LatentFormat.decode_latent_to_preview`: takes batch element `x0[0]`
of a (batch, 16, h, w) latent, permutes it to (h, w, 16), projects each pixel
through `previewFactors`, and quantizes to an (h, w, 3) byte image. The
batch-index-0 access `x0[0]` is `List.headI`. -/
def SD3LatentFormat.decode_latent_to_preview (_f : SD3LatentFormat)
    (x0 : List (List (List (List ℚ)))) : List (List (List ℤ)) :=
  let latent_image := (permute120 x0.headI).map (List.map (fun v => vecMat v previewFactors))
  latent_image.map (List.map (List.map toUbyte))

/-- `append_dims`/broadcasting is identity in the elementwise model; `to_d`
from `sd3_impls.py`: Karras ODE derivative `(x - denoised) / sigma`. -/
def to_d (x sigma denoised : ℚ) : ℚ :=
  (x - denoised) / sigma

/-- `sample_euler` from `sd3_impls.py`: for each adjacent pair
`(sigmas[i], sigmas[i+1])`, one Euler step
`x += to_d(x, sigmas[i], model(x, sigmas[i])) * (sigmas[i+1] - sigmas[i])`. -/
def sample_euler (model : ℚ → ℚ → ℚ) : ℚ → List ℚ → ℚ
  | x, sigma_i :: sigma_next :: rest =>
    let sigma_hat := sigma_i
    let denoised := model x sigma_hat
    let d := to_d x sigma_hat denoised
    let dt := sigma_next - sigma_hat
    sample_euler model (x + d * dt) (sigma_next :: rest)
  | x, _ => x

/-- Modelled from the spec: the transcendental float functions `exp`, `log`
and `expm1` used by `sample_dpmpp_2m` come from the numeric engine, outside
the provided sources; they are abstract parameters here, so the sampler's
control flow and algebraic structure are embedded exactly while the
transcendentals stay opaque. -/
structure RealOps where
  exp : ℚ → ℚ
  log : ℚ → ℚ
  expm1 : ℚ → ℚ

/-- `sigma_fn = lambda t: t.neg().exp()` in `sample_dpmpp_2m`. -/
def sigma_fn (ops : RealOps) (t : ℚ) : ℚ :=
  ops.exp (-t)

/-- `t_fn = lambda sigma: sigma.log().neg()` in `sample_dpmpp_2m`. -/
def t_fn (ops : RealOps) (sigma : ℚ) : ℚ :=
  -(ops.log sigma)

/-- One iteration of the `sample_dpmpp_2m` loop body. `old` carries
`old_denoised` together with the previous sigma `sigmas[i-1]` (in the source
these are the loop variable `old_denoised` and the positional access
`sigmas[i-1]`, which exists exactly when `old_denoised` is not `None`).
The branch mirrors `if old_denoised is None or sigmas[i+1] == 0` with
short-circuit `or`: `None` takes the first-order update outright, otherwise
the zero test decides. -/
def dpmpp_2m_step (ops : RealOps) (model : ℚ → ℚ → ℚ) (x : ℚ)
    (old : Option (ℚ × ℚ)) (sigma_i sigma_next : ℚ) : ℚ :=
  let denoised := model x sigma_i
  let t := t_fn ops sigma_i
  let t_next := t_fn ops sigma_next
  let h := t_next - t
  match old with
  | none => (sigma_fn ops t_next / sigma_fn ops t) * x - ops.expm1 (-h) * denoised
  | some (sigma_prev, old_denoised) =>
    if sigma_next = 0 then
      (sigma_fn ops t_next / sigma_fn ops t) * x - ops.expm1 (-h) * denoised
    else
      let h_last := t - t_fn ops sigma_prev
      let r := h_last / h
      let denoised_d := (1 + 1 / (2 * r)) * denoised - (1 / (2 * r)) * old_denoised
      (sigma_fn ops t_next / sigma_fn ops t) * x - ops.expm1 (-h) * denoised_d

/-- `sample_dpmpp_2m` from `sd3_impls.py`: iterates `dpmpp_2m_step` over
adjacent sigma pairs, threading `x` and the `(sigmas[i-1], old_denoised)`
history (initially `None`). -/
def sample_dpmpp_2m (ops : RealOps) (model : ℚ → ℚ → ℚ) :
    ℚ → Option (ℚ × ℚ) → List ℚ → ℚ
  | x, old, sigma_i :: sigma_next :: rest =>
    let denoised := model x sigma_i
    sample_dpmpp_2m ops model (dpmpp_2m_step ops model x old sigma_i sigma_next)
      (some (sigma_i, denoised)) (sigma_next :: rest)
  | x, _, _ => x

/-! ## Theorems -/

lemma half_shift_ne (a : ℚ) (ha : a ≠ 1) :
    a * (1 / 2) / (1 + (a - 1) * (1 / 2)) ≠ 1 / 2 := by
  intro heq
  by_cases hD : (1 + (a - 1) * (1 / 2) : ℚ) = 0
  · rw [hD, div_zero] at heq
    norm_num at heq
  · rw [div_eq_iff hD] at heq
    apply ha
    field_simp at heq
    linarith

/-- Claim C7: `sigma(t)` equals `t/1000` when `shift = 1.0`, and
`shift*(t/1000) / (1 + (shift-1)*(t/1000))` for any other shift. -/
theorem sigma_shift_formula (m : ModelSamplingDiscreteFlow) (t : ℚ) :
    (m.shift = 1 → m.sigma t = t / 1000) ∧
    (m.shift ≠ 1 →
      m.sigma t = m.shift * (t / 1000) / (1 + (m.shift - 1) * (t / 1000))) := by
  constructor
  · intro h
    simp [ModelSamplingDiscreteFlow.sigma, h]
  · intro h
    simp [ModelSamplingDiscreteFlow.sigma, h]

theorem sigma_shift_formula_witness :
    (ModelSamplingDiscreteFlow.mk 1).sigma 500 = 1 / 2 ∧
    (ModelSamplingDiscreteFlow.mk 3).sigma 500 = 3 / 4 := by
  constructor
  · rw [(sigma_shift_formula ⟨1⟩ 500).1 rfl]
    norm_num
  · rw [(sigma_shift_formula ⟨3⟩ 500).2 (by norm_num)]
    norm_num

/-- Claim C8: `timestep(s) = s * 1000`; with `shift = 1` the round trip
`sigma(timestep(s))` equals `s` for `s ∈ (0, 1]`; and with any `shift ≠ 1`
the round trip is not exact (checked at `s = 1/2`). -/
theorem timestep_roundtrip (m : ModelSamplingDiscreteFlow) (s : ℚ) :
    m.timestep s = s * 1000 ∧
    (m.shift = 1 → 0 < s → s ≤ 1 → m.sigma (m.timestep s) = s) ∧
    (m.shift ≠ 1 → m.sigma (m.timestep (1 / 2)) ≠ 1 / 2) := by
  refine ⟨rfl, ?_, ?_⟩
  · intro h1 _ _
    simp [ModelSamplingDiscreteFlow.sigma, ModelSamplingDiscreteFlow.timestep, h1]
  · intro h1
    have ht : m.timestep (1 / 2) = 500 := by
      norm_num [ModelSamplingDiscreteFlow.timestep]
    have h5 : ((500 : ℚ) / 1000) = 1 / 2 := by norm_num
    rw [ht]
    simp only [ModelSamplingDiscreteFlow.sigma, if_neg h1, h5]
    exact half_shift_ne m.shift h1

theorem timestep_roundtrip_witness :
    (ModelSamplingDiscreteFlow.mk 1).timestep (1 / 2) = 500 ∧
    (ModelSamplingDiscreteFlow.mk 1).sigma
        ((ModelSamplingDiscreteFlow.mk 1).timestep (1 / 2)) = 1 / 2 ∧
    (ModelSamplingDiscreteFlow.mk 2).sigma
        ((ModelSamplingDiscreteFlow.mk 2).timestep (1 / 2)) ≠ 1 / 2 := by
  refine ⟨?_, ?_, ?_⟩
  · rw [(timestep_roundtrip ⟨1⟩ (1 / 2)).1]
    norm_num
  · exact (timestep_roundtrip ⟨1⟩ (1 / 2)).2.1 rfl (by norm_num) (by norm_num)
  · exact (timestep_roundtrip ⟨2⟩ (1 / 2)).2.2 (by norm_num)

/-- Claim C9: `process_out (process_in x) = x` for the fixed constants
`scale_factor = 1.5305`, `shift_factor = 0.0609` (exact affine inverse;
exact over `ℚ`). -/
theorem process_roundtrip (x : ℚ) :
    SD3LatentFormat.init.process_out (SD3LatentFormat.init.process_in x) = x := by
  unfold SD3LatentFormat.init SD3LatentFormat.process_in SD3LatentFormat.process_out
  rw [mul_div_cancel_right₀ _ (by norm_num : (1.5305 : ℚ) ≠ 0)]
  ring

/-- Claim C1: the claim says `CFGDenoiser.forward` returns
`neg_out + (pos_out - neg_out) * cond_scale`, hence exactly `pos_out` at
`cond_scale = 1.0`. The source instead hardcodes the factor `2.5` (line 217,
with a comment naming `cond_scale`) and never reads the `cond_scale`
argument. Evaluation at the failing input: a backbone returning its
`c_crossattn` entry, `cond` with entries `1`, `uncond` with entries `0`,
so `pos_out = 1`, `neg_out = 0`; at `cond_scale = 1` the code returns
`5/2`, not `pos_out = 1`. -/
theorem cfg_cond_scale_ignored :
    (CFGDenoiser.mk (C := ℚ) ⟨fun _ _ c _ _ => c⟩).forward 0 0 ⟨1, 1⟩ ⟨0, 0⟩ 1 = 5 / 2 ∧
    (CFGDenoiser.mk (C := ℚ) ⟨fun _ _ c _ _ => c⟩).forward 0 0 ⟨1, 1⟩ ⟨0, 0⟩ 1 ≠ 1 := by
  constructor <;> norm_num [CFGDenoiser.forward]

/-- Claim C2: the skip-layer evaluation in `SkipLayerCFGDenoiser.forward`
runs exactly when `slg > 0` and `skip_start*steps < step < skip_end*steps`;
when it runs, the output is the CFG result plus
`(pos_out - skip_layer_out) * slg`. -/
theorem skiplayer_branch {C : Type} (d : SkipLayerCFGDenoiser C) (x timestep : ℚ)
    (cond uncond : CondBundle C) (cond_scale : ℚ) :
    (d.skipGuard ↔
      0 < d.slg ∧ d.skip_start * (d.steps : ℚ) < (d.step : ℚ) ∧
        (d.step : ℚ) < d.skip_end * (d.steps : ℚ)) ∧
    (d.skipGuard →
      (d.forward x timestep cond uncond cond_scale).1 =
        d.model.apply_model x timestep uncond.c_crossattn uncond.y [] +
          (d.model.apply_model x timestep cond.c_crossattn cond.y [] -
            d.model.apply_model x timestep uncond.c_crossattn uncond.y []) * cond_scale +
          (d.model.apply_model x timestep cond.c_crossattn cond.y [] -
            d.model.apply_model x timestep cond.c_crossattn cond.y d.skip_layers) * d.slg) := by
  refine ⟨Iff.rfl, fun h => ?_⟩
  simp only [SkipLayerCFGDenoiser.forward, if_pos h]

theorem skiplayer_branch_witness :
    ((SkipLayerCFGDenoiser.mk (C := ℚ)
        ⟨fun _ _ c _ sl => c + (sl.length : ℚ)⟩ 10 1 0 1 [7] 5).forward
        0 0 ⟨1, 0⟩ ⟨0, 0⟩ 2).1 = 1 := by
  rw [(skiplayer_branch (SkipLayerCFGDenoiser.mk (C := ℚ)
        ⟨fun _ _ c _ sl => c + (sl.length : ℚ)⟩ 10 1 0 1 [7] 5)
        0 0 ⟨1, 0⟩ ⟨0, 0⟩ 2).2
      (by norm_num [SkipLayerCFGDenoiser.skipGuard])]
  norm_num

/-- Claim C3: with `scale = 0` or `skip_start = skip_end`, the skip branch of
`SkipLayerCFGDenoiser.forward` cannot run and the output is the plain CFG
value `neg_out + (pos_out - neg_out) * cond_scale`. -/
theorem slg_zero_or_empty_window {C : Type} (d : SkipLayerCFGDenoiser C)
    (x timestep : ℚ) (cond uncond : CondBundle C) (cond_scale : ℚ)
    (h : d.slg = 0 ∨ d.skip_start = d.skip_end) :
    ¬d.skipGuard ∧
    (d.forward x timestep cond uncond cond_scale).1 =
      d.model.apply_model x timestep uncond.c_crossattn uncond.y [] +
        (d.model.apply_model x timestep cond.c_crossattn cond.y [] -
          d.model.apply_model x timestep uncond.c_crossattn uncond.y []) * cond_scale := by
  have hg : ¬d.skipGuard := by
    rcases h with h | h
    · rintro ⟨h1, -, -⟩
      rw [h] at h1
      exact lt_irrefl 0 h1
    · rintro ⟨-, h2, h3⟩
      rw [h] at h2
      exact lt_irrefl _ (h2.trans h3)
  refine ⟨hg, ?_⟩
  simp only [SkipLayerCFGDenoiser.forward, if_neg hg]

theorem slg_zero_or_empty_window_witness :
    ¬(SkipLayerCFGDenoiser.mk (C := ℚ)
        ⟨fun _ _ c _ sl => c + (sl.length : ℚ)⟩ 10 0 0 1 [7] 5).skipGuard ∧
    ((SkipLayerCFGDenoiser.mk (C := ℚ)
        ⟨fun _ _ c _ sl => c + (sl.length : ℚ)⟩ 10 0 0 1 [7] 5).forward
        0 0 ⟨1, 0⟩ ⟨0, 0⟩ 2).1 = 2 := by
  have h := slg_zero_or_empty_window (SkipLayerCFGDenoiser.mk (C := ℚ)
      ⟨fun _ _ c _ sl => c + (sl.length : ℚ)⟩ 10 0 0 1 [7] 5)
      0 0 ⟨1, 0⟩ ⟨0, 0⟩ 2 (Or.inl rfl)
  refine ⟨h.1, ?_⟩
  rw [h.2]
  norm_num

/-- Claim C4: every call to `SkipLayerCFGDenoiser.forward` leaves the wrapper
state unchanged except for incrementing `step` by exactly one, for every
input and configuration; the constructor is the only other operation touching
the counter and it sets it to 0. -/
theorem skiplayer_step_increment {C : Type} (d : SkipLayerCFGDenoiser C)
    (x timestep : ℚ) (cond uncond : CondBundle C) (cond_scale : ℚ)
    (model : BaseModel C) (steps : ℕ) (scale start stop : ℚ) (layers : List ℕ) :
    (d.forward x timestep cond uncond cond_scale).2 = { d with step := d.step + 1 } ∧
    (SkipLayerCFGDenoiser.init model steps scale start stop layers).step = 0 :=
  ⟨rfl, rfl⟩

/-- Claim C5: each Euler step computes `denoised = model(x, sigma_i)`,
`d = (x - denoised)/sigma_i`, `x := x + d*(sigma_next - sigma_i)` (stated for
every sigma list, so in particular for every strictly decreasing one); and
with the identically-zero denoiser, `x = 1`, `sigmas = [1, 0]`, the final `x`
is `0`. -/
theorem euler_step_equation :
    (∀ (model : ℚ → ℚ → ℚ) (x sigma_i sigma_next : ℚ) (rest : List ℚ),
      sample_euler model x (sigma_i :: sigma_next :: rest) =
        sample_euler model
          (x + to_d x sigma_i (model x sigma_i) * (sigma_next - sigma_i))
          (sigma_next :: rest)) ∧
    sample_euler (fun _ _ => 0) 1 [1, 0] = 0 := by
  refine ⟨fun model x sigma_i sigma_next rest => rfl, ?_⟩
  norm_num [sample_euler, to_d]

/-- Claim C6: in `sample_dpmpp_2m`, whenever the history is `None` (first
step) or the next sigma is exactly `0`, the step is the first-order update
`x = (sigma_fn t_next / sigma_fn t) * x - expm1 (-h) * denoised`, whose value
never consults the history — the second-order branch (computing
`r = h_last/h`) is unreachable there. Under the additional fact that `exp`
inverts `log` the update is the claim's
`(sigma[i+1]/sigma[i]) * x - expm1 (-h) * denoised` form. -/
theorem dpmpp_first_order_branch (ops : RealOps) (model : ℚ → ℚ → ℚ) (x : ℚ)
    (old : Option (ℚ × ℚ)) (sigma_i sigma_next : ℚ)
    (h : old = none ∨ sigma_next = 0) :
    dpmpp_2m_step ops model x old sigma_i sigma_next =
      (sigma_fn ops (t_fn ops sigma_next) / sigma_fn ops (t_fn ops sigma_i)) * x -
        ops.expm1 (-(t_fn ops sigma_next - t_fn ops sigma_i)) * model x sigma_i ∧
    ((∀ s : ℚ, ops.exp (ops.log s) = s) →
      dpmpp_2m_step ops model x old sigma_i sigma_next =
        sigma_next / sigma_i * x -
          ops.expm1 (-(t_fn ops sigma_next - t_fn ops sigma_i)) * model x sigma_i) := by
  have h1 : dpmpp_2m_step ops model x old sigma_i sigma_next =
      (sigma_fn ops (t_fn ops sigma_next) / sigma_fn ops (t_fn ops sigma_i)) * x -
        ops.expm1 (-(t_fn ops sigma_next - t_fn ops sigma_i)) * model x sigma_i := by
    rcases old with _ | ⟨sigma_prev, old_denoised⟩
    · rfl
    · rcases h with h | h
      · exact absurd h (by simp)
      · subst h
        simp [dpmpp_2m_step]
  refine ⟨h1, fun hexp => ?_⟩
  rw [h1]
  simp [sigma_fn, t_fn, hexp]

theorem dpmpp_first_order_branch_witness :
    dpmpp_2m_step ⟨fun q => q, fun q => q, fun q => q⟩ (fun _ _ => 1) 2 none 2 3 = 2 := by
  rw [(dpmpp_first_order_branch ⟨fun q => q, fun q => q, fun q => q⟩
        (fun _ _ => 1) 2 none 2 3 (Or.inl rfl)).2 (fun s => rfl)]
  norm_num [t_fn]

/-- Claim C10: `decode_latent_to_preview` reads only batch element 0 of its
input: two nonempty latent batches with equal first elements produce
identical previews, whatever the remaining batch elements are. -/
theorem preview_first_batch_only (x0 x0' : List (List (List (List ℚ))))
    (h0 : x0 ≠ []) (h0' : x0' ≠ []) (h : x0.headI = x0'.headI) :
    SD3LatentFormat.init.decode_latent_to_preview x0 =
      SD3LatentFormat.init.decode_latent_to_preview x0' := by
  unfold SD3LatentFormat.decode_latent_to_preview
  rw [h]

theorem preview_first_batch_only_witness :
    SD3LatentFormat.init.decode_latent_to_preview [[[[0]]], [[[1]]]] =
      SD3LatentFormat.init.decode_latent_to_preview [[[[0]]], [[[2]]]] :=
  preview_first_batch_only _ _ (by simp) (by simp) rfl
